import Mathlib

/-!
Verification of the tool-orchestration core of `visual-chatbot`
(`src/api/src/index.mjs`).  Pure parts of the source are embedded directly;
components whose module files are referenced but not present in the sources
(`messageStore.mjs`, `toolStore.mjs`, `llmClient.mjs`, `mcpServer.mjs`,
`mcpServerStore.mjs`) are modelled from the specification, each such
definition marked `Modelled from the spec:` in its doc comment.
-/

namespace VisualChatbot

/-- JSON-like runtime values exchanged between the HTTP boundary, the tool
bodies and the model backend.  Object fields keep insertion order, matching
JavaScript object semantics for identifier-shaped keys. -/
inductive JValue where
  | null
  | bool (b : Bool)
  | num (n : Int)
  | str (s : String)
  | arr (elems : List JValue)
  | obj (fields : List (String × JValue))

/-- One property entry of a tool parameter schema (`type`/`description`). -/
structure PropSpec where
  type : String
  description : String
deriving DecidableEq, Repr

/-- Tool parameter schema: an object schema with named properties (insertion
order preserved) and a required subset.  `properties = none` models a schema
value carrying no `properties` object. -/
structure Schema where
  properties : Option (List (String × PropSpec))
  required : List String
deriving DecidableEq, Repr

/-- `Object.keys(parameters?.properties || \x7b\x7d)` from `addLocalTool`
(index.mjs:160): the declared property names of the schema in insertion
order; the empty list when `parameters` is absent or has no `properties`. -/
def requestedParameters (parameters : Option Schema) : List String :=
  match parameters with
  | none => []
  | some sch => (sch.properties.getD []).map Prod.fst

/-- Semantics of the compiled body of a dynamic tool: the behaviour of the
async function synthesized by `new Function` (index.mjs:161-163) when applied
to a vector of positional arguments (`none` models the JavaScript value
`undefined`).  `Except.error msg` models the body throwing an error whose
`.message` is `msg`. -/
def BodySem : Type := List (Option JValue) → Except String JValue

/-- JSON string escaping as performed by `JSON.stringify` on the
`errorMessage` field (quote, backslash and common control characters). -/
def jsonEscapeChar (c : Char) : String :=
  if c = '"' then "\\\""
  else if c = '\\' then "\\\\"
  else if c = '\n' then "\\n"
  else if c = '\r' then "\\r"
  else if c = '\t' then "\\t"
  else String.singleton c

/-- JSON string escaping lifted to strings. -/
def jsonEscape (s : String) : String :=
  String.join (s.toList.map jsonEscapeChar)

/-- `JSON.stringify(\x7bsuccess: false, errorMessage: e.message\x7d)` from
`onExecute` (index.mjs:169-172). -/
def stringifyFailure (msg : String) : String :=
  "\x7b\"success\":false,\"errorMessage\":\"" ++ jsonEscape msg ++ "\"\x7d"

/-- Lookup of a named argument in the incoming argument object:
`incomingArgs[p]` (index.mjs:167); `none` models `undefined`. -/
def argLookup (incomingArgs : List (String × JValue)) (p : String) :
    Option JValue :=
  (incomingArgs.find? (fun kv => kv.1 = p)).map Prod.snd

/-- The positional argument vector passed to the compiled body:
`requestedParameters.map(p => incomingArgs[p])` (index.mjs:167). -/
def argVector (parameters : Option Schema)
    (incomingArgs : List (String × JValue)) : List (Option JValue) :=
  (requestedParameters parameters).map (argLookup incomingArgs)

/-- `onExecute` from `addLocalTool` (index.mjs:165-174): applies the compiled
body to the positional arguments drawn by name from the incoming argument
object; a failure raised by the body is caught and converted into the
serialized structured failure, so the function is total (no host-level
error can escape). -/
def onExecute (parameters : Option Schema) (body : BodySem)
    (incomingArgs : List (String × JValue)) : JValue :=
  match body (argVector parameters incomingArgs) with
  | .ok v => v
  | .error msg => .str (stringifyFailure msg)

/-- Origin tag of a tool: locally compiled or contributed by a named
provider (spec §3, `"local"` literal at index.mjs:180). -/
inductive Origin where
  | local
  | provider (name : String)
deriving DecidableEq, Repr

/-- A registry entry (`tool.mjs` constructor as used at index.mjs:176-182):
name, description, parameter schema, origin, and the execution capability. -/
structure Tool where
  name : String
  description : String
  parameters : Option Schema
  origin : Origin
  execute : List (String × JValue) → JValue

/-- The `Tool` value built by `addLocalTool` (index.mjs:176-182). -/
def mkLocalTool (name description : String) (body : BodySem)
    (parameters : Option Schema) : Tool :=
  { name := name
    description := description
    parameters := parameters
    origin := .local
    execute := onExecute parameters body }

/-! ## Tool store -/

/-- Modelled from the spec: `ToolStore.addTool` (`toolStore.mjs`, not in the
sources; spec §4.2 "add(tool): inserts or replaces by name", §3 "Adding a
tool with an existing name overwrites it in place").  The catalog is the
ordered list of tools; an existing entry of the same name is replaced in
place, otherwise the tool is appended. -/
def addTool (store : List Tool) (t : Tool) : List Tool :=
  if store.any (fun u => u.name = t.name) then
    store.map (fun u => if u.name = t.name then t else u)
  else
    store ++ [t]

/-- Modelled from the spec: `ToolStore.removeToolByName` (`toolStore.mjs`,
not in the sources; spec §4.2 "removeByName(name): deletes if present ...
no-op if absent"). -/
def removeToolByName (store : List Tool) (name : String) : List Tool :=
  store.filter (fun t => t.name ≠ name)

/-- `addLocalTool` (index.mjs:159-185): compiles the supplied body against
the schema-derived parameter list and registers the resulting local tool. -/
def addLocalTool (store : List Tool) (name description : String)
    (body : BodySem) (parameters : Option Schema) : List Tool :=
  addTool store (mkLocalTool name description body parameters)

/-! ## Message log -/

/-- Conversation roles (spec §3). -/
inductive Role where
  | system
  | user
  | assistant
  | tool
deriving DecidableEq, Repr

/-- A log entry: role, content, optional call-correlation id, optional tool
name (spec §3, §6). -/
structure Message where
  role : Role
  content : JValue
  tool_call_id : Option String := none
  name : Option String := none

/-- Runtime configuration (`config.mjs`, as constructed at index.mjs:19-24). -/
structure Configuration where
  apiKey : String
  systemPrompt : String
  model : String
  endpoint : String
deriving DecidableEq, Repr

/-- The system message appended by `addSystemPrompt` (index.mjs:187-191). -/
def systemMessage (config : Configuration) : Message :=
  { role := .system, content := .str config.systemPrompt }

/-- Modelled from the spec: `MessageStore.clearMessages` (`messageStore.mjs`,
not in the sources; spec §4.1 "clear(): empties the log, notifies 'cleared'
observers").  The cleared-observers are passed explicitly as log
transformers and run synchronously, in registration order, on the emptied
log. -/
def clearMessages (clearedListeners : List (List Message → List Message))
    (_log : List Message) : List Message :=
  clearedListeners.foldl (fun l f => f l) []

/-- The cleared-listeners registered by `setupEventListeners`
(index.mjs:195-196): first `io.emit('messages', [])` (no log mutation),
then `addSystemPrompt()` which appends the system message. -/
def wiredClearedListeners (config : Configuration) :
    List (List Message → List Message) :=
  [fun l => l, fun l => l ++ [systemMessage config]]

/-! ## Provider process manager and provider registry -/

/-- Lifecycle state of a provider subprocess. -/
inductive ProcState where
  | running
  | terminated
deriving DecidableEq, Repr

/-- A provider record (`mcpServer.mjs` constructor as used at index.mjs:75;
spec §3): unique name, launch command and arguments, process handle state. -/
structure McpServer where
  name : String
  command : String
  args : List String
  procState : ProcState
deriving DecidableEq, Repr

/-- Modelled from the spec: `McpServer.shutdown` (`mcpServer.mjs`, not in
the sources; spec §4.4 "shutdown(): requests graceful termination of the
subprocess and waits for exit; idempotent — calling it on an
already-terminated process succeeds without error").  `Except.error` would
model a raised error; shutdown never raises one. -/
def shutdown (s : McpServer) : Except String McpServer :=
  match s.procState with
  | .running => .ok { s with procState := .terminated }
  | .terminated => .ok s

/-- The provider registry paired with the tool registry it mirrors into
(`mcpServerStore.mjs` state, constructed at index.mjs:28). -/
structure McpServerStoreState where
  servers : List McpServer
  tools : List Tool

/-- Modelled from the spec: `McpServerStore.removeMcpServerByName`
(`mcpServerStore.mjs`, not in the sources; spec §4.5 "removeByName(name):
looks up the manager, invokes its shutdown, removes every tool tagged with
it from the Tool Registry").  Every tool whose origin is the named provider
is removed from the tool registry; the manager record is dropped after its
shutdown. -/
def removeMcpServerByName (st : McpServerStoreState) (name : String) :
    McpServerStoreState :=
  { servers :=
      (st.servers.map (fun s =>
        if s.name = name then
          match shutdown s with
          | .ok s' => s'
          | .error _ => s
        else s)).filter (fun s => s.name ≠ name)
    tools := st.tools.filter (fun t => t.origin ≠ .provider name) }

/-- Modelled from the spec: `McpServerStore.shutdown` invoked by the
process-signal handler (index.mjs:216-222; spec §4.5 "shutdownAll():
terminates every registered manager").  Each registered manager's shutdown
is invoked exactly once, in registration order. -/
def shutdownAll (servers : List McpServer) : List McpServer :=
  servers.map (fun s =>
    match shutdown s with
    | .ok s' => s'
    | .error _ => s)

/-! ## Orchestration loop -/

/-- One tool-call request in a model response: tool name, arguments and the
correlation id (spec §4.6 step 4). -/
structure ToolCall where
  id : String
  name : String
  args : List (String × JValue)

/-- A model backend response: a final answer, a batch of tool-call
requests, or a fatal backend error (spec §4.6 steps 3, 4, 6). -/
inductive ModelResponse where
  | finalAnswer (content : String)
  | toolCalls (calls : List ToolCall)
  | backendError (msg : String)

/-- Terminal outcome of one `sendMessage` traversal; `outOfFuel` marks a
run that exhausted the given fuel without reaching a terminal state (the
observed design itself imposes no turn bound, spec §9 open question). -/
inductive LoopOutcome where
  | done
  | failed (msg : String)
  | outOfFuel
deriving DecidableEq, Repr

/-- Modelled from the spec: the structured `UnknownToolError` result
produced when the model requests a tool absent from the registry
(`llmClient.mjs`, not in the sources; spec §4.2 invoke, §4.6 step 4,
§7). -/
def unknownToolResult (name : String) : JValue :=
  .obj [("success", .bool false),
        ("error", .str "UnknownToolError"),
        ("toolName", .str name)]

/-- Modelled from the spec: resolution of a single tool call
(`llmClient.mjs`, not in the sources; spec §4.6 step 4): the registry is
consulted by name; a registered tool's execution capability is applied to
the named arguments, an unknown name yields the structured
`UnknownToolError` result; either way exactly one tool-result message
carrying the originating call id is produced. -/
def resolveCall (registry : List Tool) (c : ToolCall) : Message :=
  match registry.find? (fun t => t.name = c.name) with
  | some t =>
      { role := .tool, content := t.execute c.args,
        tool_call_id := some c.id, name := some c.name }
  | none =>
      { role := .tool, content := unknownToolResult c.name,
        tool_call_id := some c.id, name := some c.name }

/-- Modelled from the spec: the tool-execution phase of one turn
(`llmClient.mjs`, not in the sources; spec §4.6 step 4, §5 fan-out/join):
every call of the batch is resolved and its result message produced, in
call order, before the loop returns to the model. -/
def executeToolCalls (registry : List Tool) (calls : List ToolCall) :
    List Message :=
  calls.map (resolveCall registry)

/-- Modelled from the spec: the multi-turn orchestration loop of
`LlmClient.sendMessage` (`llmClient.mjs`, not in the sources; spec §4.6
steps 2-6 and §9 open question: the observed design repeats model turns
with no configured maximum, so termination is a property of the backend's
answers, not of the loop).  `backend t` is the model's response to the
`t`-th request of this traversal; `fuel` is the meta-level recursion
budget, not part of the modelled program. -/
def runLoop : Nat → (Nat → ModelResponse) → List Tool → List Message →
    Nat → LoopOutcome × List Message
  | 0, _, _, log, _ => (.outOfFuel, log)
  | fuel + 1, backend, registry, log, turn =>
    match backend turn with
    | .finalAnswer c =>
        (.done, log ++ [{ role := .assistant, content := .str c }])
    | .backendError msg => (.failed msg, log)
    | .toolCalls calls =>
        runLoop fuel backend registry
          (log ++ executeToolCalls registry calls) (turn + 1)

/-- Modelled from the spec: `sendMessage(userText)` (`llmClient.mjs`, not
in the sources; spec §4.6 step 1 then the loop): append the user message,
then drive the loop from turn 0. -/
def sendMessage (fuel : Nat) (backend : Nat → ModelResponse)
    (registry : List Tool) (log : List Message) (userText : String) :
    LoopOutcome × List Message :=
  runLoop fuel backend registry
    (log ++ [{ role := .user, content := .str userText }]) 0

/-! ## HTTP boundary handlers -/

/-- JavaScript truthiness of a request-body field, as tested by the
`!req.body.x` guards; `none` models an absent field (`undefined`). -/
def truthy : Option JValue → Bool
  | none => false
  | some .null => false
  | some (.bool b) => b
  | some (.num n) => n ≠ 0
  | some (.str s) => s ≠ ""
  | some (.arr _) => true
  | some (.obj _) => true

/-- Outcome of one HTTP request at the boundary: the status code sent and
whether the handler invoked the core past the boundary check. -/
structure HandlerOutcome where
  status : Nat
  coreEntered : Bool
deriving DecidableEq, Repr

/-- Request body of `POST /api/tools`; each field is absent or a JSON
value. -/
structure ToolsPostBody where
  name : Option JValue
  description : Option JValue
  code : Option JValue
  parameters : Option JValue

/-- `app.post("/api/tools")` (index.mjs:138-147): missing/falsy required
fields are rejected with status 400 before `addLocalTool` runs. -/
def handleToolsPost (body : ToolsPostBody) : HandlerOutcome :=
  if !(truthy body.name) || !(truthy body.description)
      || !(truthy body.code) || !(truthy body.parameters) then
    { status := 400, coreEntered := false }
  else
    { status := 200, coreEntered := true }

/-- `app.delete("/api/tools")` (index.mjs:149-157): a missing/falsy `name`
is rejected with status 400 before `removeToolByName` runs. -/
def handleToolsDelete (name : Option JValue) : HandlerOutcome :=
  if !(truthy name) then { status := 400, coreEntered := false }
  else { status := 200, coreEntered := true }

/-- Request body of `POST /api/mcp-servers`. -/
structure McpServersPostBody where
  name : Option JValue
  command : Option JValue
  args : Option JValue

/-- `app.post("/api/mcp-servers")` boundary check (index.mjs:68-72):
missing/falsy required fields are rejected with status 400 before any
provider is bootstrapped. -/
def handleMcpServersPost (body : McpServersPostBody) : HandlerOutcome :=
  if !(truthy body.name) || !(truthy body.command) || !(truthy body.args) then
    { status := 400, coreEntered := false }
  else
    { status := 200, coreEntered := true }

/-- `app.delete("/api/mcp-servers")` (index.mjs:85-93): a missing/falsy
`name` is rejected with status 400 before `removeMcpServerByName` runs. -/
def handleMcpServersDelete (name : Option JValue) : HandlerOutcome :=
  if !(truthy name) then { status := 400, coreEntered := false }
  else { status := 200, coreEntered := true }

/-- `app.post("/api/messages")` (index.mjs:58-61): the handler performs no
validation; `llmClient.sendMessage(req.body.message)` is invoked for every
request body, including one with `message` absent. -/
def handleMessagesPost (_message : Option JValue) : HandlerOutcome :=
  { status := 200, coreEntered := true }

/-! ## Backend scenarios used to analyse loop termination -/

/-- A model backend that requests a tool call on every turn. -/
def alwaysToolCalls : Nat → ModelResponse :=
  fun _ => .toolCalls [⟨"call-0", "lookup", []⟩]

/-- A model backend that requests one tool call on each of the first `m`
turns and then returns a final answer. -/
def toolsThenFinal (m : Nat) : Nat → ModelResponse :=
  fun t => if t < m then .toolCalls [⟨"call-0", "lookup", []⟩]
           else .finalAnswer "done"

/-! # Theorems -/

/-- C6: For every log state, performing the clear operation (with the
listeners wired by `setupEventListeners`) yields a log of length exactly 1
whose single entry is the re-seeded system message: role `system`, content
the configured system prompt. -/
theorem clear_reseeds_system_message (config : Configuration)
    (log : List Message) :
    clearMessages (wiredClearedListeners config) log = [systemMessage config] ∧
    (clearMessages (wiredClearedListeners config) log).length = 1 ∧
    (systemMessage config).role = .system ∧
    (systemMessage config).content = .str config.systemPrompt := by
  refine ⟨rfl, rfl, rfl, rfl⟩

/-- C8: Provider shutdown is idempotent: shutdown always succeeds (also on
an already-terminated process, and on a second consecutive call), and the
process-termination path (`shutdownAll`) shuts down every registered
provider exactly once — one shutdown application per registry entry, names
and cardinality preserved, every result terminated, and a second pass is
the identity. -/
theorem shutdown_idempotent (s : McpServer) (servers : List McpServer) :
    (∃ s', shutdown s = .ok s' ∧ shutdown s' = .ok s' ∧
        s'.procState = .terminated) ∧
    (shutdownAll servers).length = servers.length ∧
    (∀ s' ∈ shutdownAll servers, s'.procState = .terminated) ∧
    shutdownAll (shutdownAll servers) = shutdownAll servers ∧
    (shutdownAll servers).map McpServer.name = servers.map McpServer.name := by
  constructor
  · cases hs : s.procState with
    | running =>
        exact ⟨{ s with procState := .terminated },
          by simp [shutdown, hs], by simp [shutdown], rfl⟩
    | terminated =>
        refine ⟨s, by simp [shutdown, hs], by simp [shutdown, hs], hs⟩
  refine ⟨by simp [shutdownAll], ?_, ?_, ?_⟩
  · intro s' hs'
    simp only [shutdownAll, List.mem_map] at hs'
    obtain ⟨u, -, hu⟩ := hs'
    cases hpu : u.procState <;> simp [shutdown, hpu] at hu <;>
      simp [← hu, hpu]
  · simp only [shutdownAll, List.map_map]
    refine List.map_congr_left ?_
    intro u _
    cases hpu : u.procState <;> simp [shutdown, hpu]
  · simp only [shutdownAll, List.map_map]
    refine List.map_congr_left ?_
    intro u _
    cases hpu : u.procState <;> simp [shutdown, hpu]

/-- C1: A compiled local tool whose body raises a failure returns the
structured result `\x7bsuccess:false, errorMessage:<message>\x7d` (as
serialized by `onExecute`) as the tool's output — the execution capability
is total, so the failure never propagates as a host-level error — and the
Orchestration Loop appends this result as the tool-result message and
continues the turn to the next model request rather than failing it. -/
theorem compiled_tool_failure_is_caught
    (name description : String) (body : BodySem) (parameters : Option Schema)
    (args : List (String × JValue)) (msg : String) (id ans : String)
    (log : List Message)
    (h : body (argVector parameters args) = .error msg) :
    (mkLocalTool name description body parameters).execute args =
      .str (stringifyFailure msg) ∧
    runLoop 2
      (fun t => if t = 0 then .toolCalls [⟨id, name, args⟩]
                else .finalAnswer ans)
      [mkLocalTool name description body parameters] log 0 =
      (.done,
        log ++ [{ role := .tool, content := .str (stringifyFailure msg),
                  tool_call_id := some id, name := some name },
                { role := .assistant, content := .str ans }]) := by
  have hexec : (mkLocalTool name description body parameters).execute args =
      .str (stringifyFailure msg) := by
    simp [mkLocalTool, onExecute, h]
  refine ⟨hexec, ?_⟩
  simp [runLoop, executeToolCalls, resolveCall, mkLocalTool, List.find?,
    onExecute, h]

/-- Witness for C1: a concrete one-parameter tool whose body throws
`"boom"`; its invocation yields the serialized structured failure and the
two-turn run ends with `done`, the failure result logged as the
tool-result message. -/
theorem compiled_tool_failure_is_caught_witness :
    (mkLocalTool "lookup" "d" (fun _ => .error "boom") none).execute [] =
      .str (stringifyFailure "boom") ∧
    runLoop 2
      (fun t => if t = 0 then .toolCalls [⟨"call-1", "lookup", []⟩]
                else .finalAnswer "ok")
      [mkLocalTool "lookup" "d" (fun _ => .error "boom") none] [] 0 =
      (.done,
        [] ++ [{ role := .tool, content := .str (stringifyFailure "boom"),
                 tool_call_id := some "call-1", name := some "lookup" },
               { role := .assistant, content := .str "ok" }]) :=
  compiled_tool_failure_is_caught "lookup" "d" (fun _ => .error "boom")
    none [] "boom" "call-1" "ok" [] rfl

/-- C2: A model turn requesting `N` tool calls produces exactly `N`
tool-result messages, the `i`-th carrying the `i`-th call's id; a call
naming a tool absent from the registry yields the structured
`UnknownToolError` result for that call only, while a call whose name
resolves is answered by that tool's output; and the loop appends all `N`
results to the log before issuing the next model request. -/
theorem tool_turn_yields_one_result_per_call
    (fuel : Nat) (backend : Nat → ModelResponse) (registry : List Tool)
    (log : List Message) (turn : Nat) (calls : List ToolCall)
    (hresp : backend turn = .toolCalls calls) :
    (executeToolCalls registry calls).length = calls.length ∧
    (executeToolCalls registry calls).map Message.tool_call_id =
      calls.map (fun c => some c.id) ∧
    (∀ c ∈ calls, (∀ t ∈ registry, t.name ≠ c.name) →
        resolveCall registry c =
          { role := .tool, content := unknownToolResult c.name,
            tool_call_id := some c.id, name := some c.name }) ∧
    (∀ c ∈ calls, ∀ t, registry.find? (fun u => u.name = c.name) = some t →
        resolveCall registry c =
          { role := .tool, content := t.execute c.args,
            tool_call_id := some c.id, name := some c.name }) ∧
    runLoop (fuel + 1) backend registry log turn =
      runLoop fuel backend registry
        (log ++ executeToolCalls registry calls) (turn + 1) := by
  refine ⟨by simp [executeToolCalls], ?_, ?_, ?_, ?_⟩
  · simp only [executeToolCalls, List.map_map]
    refine List.map_congr_left ?_
    intro c _
    by_cases hfind : (registry.find? (fun u => u.name = c.name)).isSome
    · obtain ⟨t, ht⟩ := Option.isSome_iff_exists.mp hfind
      simp [resolveCall, ht]
    · simp only [Option.not_isSome_iff_eq_none] at hfind
      simp [resolveCall, hfind]
  · intro c _ habsent
    have hfind : registry.find? (fun u => u.name = c.name) = none := by
      refine List.find?_eq_none.mpr ?_
      intro t ht
      simpa using habsent t ht
    simp [resolveCall, hfind]
  · intro c _ t hfind
    simp [resolveCall, hfind]
  · simp [runLoop, hresp]

/-- Witness for C2, with a two-call turn against a one-tool registry: the
first call resolves to the registered tool, the second names an absent
tool and receives the `UnknownToolError` result; two result messages with
the originating ids are appended before turn 1. -/
theorem tool_turn_yields_one_result_per_call_witness :
    (executeToolCalls [mkLocalTool "known" "d" (fun _ => .ok .null) none]
        [⟨"id-1", "known", []⟩, ⟨"id-2", "missing", []⟩]).length = 2 ∧
    (executeToolCalls [mkLocalTool "known" "d" (fun _ => .ok .null) none]
        [⟨"id-1", "known", []⟩, ⟨"id-2", "missing", []⟩]).map
        Message.tool_call_id =
      [⟨"id-1", "known", []⟩, ⟨"id-2", "missing", []⟩].map
        (fun c : ToolCall => some c.id) ∧
    (∀ c ∈ [(⟨"id-1", "known", []⟩ : ToolCall), ⟨"id-2", "missing", []⟩],
      (∀ t ∈ [mkLocalTool "known" "d" (fun _ => .ok .null) none],
          t.name ≠ c.name) →
        resolveCall [mkLocalTool "known" "d" (fun _ => .ok .null) none] c =
          { role := .tool, content := unknownToolResult c.name,
            tool_call_id := some c.id, name := some c.name }) ∧
    (∀ c ∈ [(⟨"id-1", "known", []⟩ : ToolCall), ⟨"id-2", "missing", []⟩],
      ∀ t, ([mkLocalTool "known" "d" (fun _ => .ok .null) none].find?
          (fun u => u.name = c.name)) = some t →
        resolveCall [mkLocalTool "known" "d" (fun _ => .ok .null) none] c =
          { role := .tool, content := t.execute c.args,
            tool_call_id := some c.id, name := some c.name }) ∧
    runLoop 1 (fun _ => .toolCalls [⟨"id-1", "known", []⟩,
        ⟨"id-2", "missing", []⟩])
      [mkLocalTool "known" "d" (fun _ => .ok .null) none] [] 0 =
      runLoop 0 (fun _ => .toolCalls [⟨"id-1", "known", []⟩,
          ⟨"id-2", "missing", []⟩])
        [mkLocalTool "known" "d" (fun _ => .ok .null) none]
        ([] ++ executeToolCalls
            [mkLocalTool "known" "d" (fun _ => .ok .null) none]
            [⟨"id-1", "known", []⟩, ⟨"id-2", "missing", []⟩]) 1 :=
  tool_turn_yields_one_result_per_call 0
    (fun _ => .toolCalls [⟨"id-1", "known", []⟩, ⟨"id-2", "missing", []⟩])
    [mkLocalTool "known" "d" (fun _ => .ok .null) none] [] 0
    [⟨"id-1", "known", []⟩, ⟨"id-2", "missing", []⟩] rfl

/-- One loop step on a tool-calling response: the results of the whole
batch are appended and the loop proceeds to the next turn. -/
theorem runLoop_toolCalls_step (fuel : Nat) (backend : Nat → ModelResponse)
    (registry : List Tool) (log : List Message) (turn : Nat)
    (calls : List ToolCall) (hresp : backend turn = .toolCalls calls) :
    runLoop (fuel + 1) backend registry log turn =
      runLoop fuel backend registry
        (log ++ executeToolCalls registry calls) (turn + 1) := by
  simp only [runLoop, hresp]

/-- Against the always-tool-calling backend the loop never reaches a
terminal state within any fuel budget. -/
theorem runLoop_alwaysToolCalls_outOfFuel (B : Nat) :
    ∀ (registry : List Tool) (log : List Message) (turn : Nat),
      (runLoop B alwaysToolCalls registry log turn).1 = .outOfFuel := by
  induction B with
  | zero => intro registry log turn; rfl
  | succ B ih =>
      intro registry log turn
      simpa [runLoop, alwaysToolCalls] using ih registry _ (turn + 1)

/-- C3 counterexample: no finite fuel bound `B` makes every `sendMessage`
traversal terminal — the backend that requests a tool call on every turn
exhausts any bound, so the modelled loop (which follows the observed
design and has no configured maximum turn count) admits no explicit
finite bound on tool-calling turns per request. -/
theorem no_turn_bound_exists :
    ¬ ∃ B : Nat, ∀ (backend : Nat → ModelResponse) (registry : List Tool)
        (log : List Message) (userText : String),
          (sendMessage B backend registry log userText).1 ≠ .outOfFuel := by
  rintro ⟨B, hB⟩
  exact hB alwaysToolCalls [] [] "hi"
    (by simpa [sendMessage] using runLoop_alwaysToolCalls_outOfFuel B [] _ 0)

/-- With `toolsThenFinal m`, any fuel reaching past turn `m` ends with
`done`. -/
theorem runLoop_toolsThenFinal_done (m : Nat) :
    ∀ (fuel turn : Nat) (registry : List Tool) (log : List Message),
      m ≤ turn + fuel →
      (runLoop (fuel + 1) (toolsThenFinal m) registry log turn).1 = .done := by
  intro fuel
  induction fuel with
  | zero =>
      intro turn registry log hle
      have : ¬ turn < m := by omega
      simp [runLoop, toolsThenFinal, this]
  | succ fuel ih =>
      intro turn registry log hle
      by_cases hlt : turn < m
      · have hstep : m ≤ (turn + 1) + fuel := by omega
        rw [runLoop_toolCalls_step (fuel + 1) (toolsThenFinal m) registry
          log turn [⟨"call-0", "lookup", []⟩] (by simp [toolsThenFinal, hlt])]
        exact ih (turn + 1) registry _ hstep
      · simp [runLoop, toolsThenFinal, hlt]

/-- With `toolsThenFinal m`, fuel that runs out before turn `m` ends with
`outOfFuel`. -/
theorem runLoop_toolsThenFinal_outOfFuel (m : Nat) :
    ∀ (B turn : Nat) (registry : List Tool) (log : List Message),
      turn + B ≤ m →
      (runLoop B (toolsThenFinal m) registry log turn).1 = .outOfFuel := by
  intro B
  induction B with
  | zero => intro turn registry log _; rfl
  | succ B ih =>
      intro turn registry log hle
      have hlt : turn < m := by omega
      have hstep : (turn + 1) + B ≤ m := by omega
      rw [runLoop_toolCalls_step B (toolsThenFinal m) registry log turn
        [⟨"call-0", "lookup", []⟩] (by simp [toolsThenFinal, hlt])]
      exact ih (turn + 1) registry _ hstep

/-- C3 amended: the loop terminates exactly when the backend stops
requesting tools — for every `m`, a backend issuing `m` tool-calling turns
and then a final answer leaves the run unfinished after `m` model
requests and terminal (`done`) after `m + 1`; no configured maximum turn
count bounds the number of tool-calling turns per request. -/
theorem loop_turns_track_backend (m : Nat) (registry : List Tool)
    (log : List Message) :
    (runLoop (m + 1) (toolsThenFinal m) registry log 0).1 = .done ∧
    (runLoop m (toolsThenFinal m) registry log 0).1 = .outOfFuel := by
  exact ⟨runLoop_toolsThenFinal_done m m 0 registry log (by omega),
    runLoop_toolsThenFinal_outOfFuel m m 0 registry log (by omega)⟩

/-- Replacing every entry named `X` by a tool itself named `X` leaves the
name sequence of the catalog unchanged. -/
theorem map_name_replace (store : List Tool) (t : Tool) (X : String)
    (ht : t.name = X) :
    (store.map (fun u => if u.name = X then t else u)).map Tool.name =
      store.map Tool.name := by
  rw [List.map_map]
  refine List.map_congr_left ?_
  intro u _
  by_cases hu : u.name = X
  · simp [hu, ht]
  · simp [hu]

/-- In a catalog with pairwise-distinct names containing the name `X`, the
entries named `X` form a one-element list. -/
theorem filter_name_unique (store : List Tool) (X : String)
    (hnodup : (store.map Tool.name).Nodup)
    (hmem : X ∈ store.map Tool.name) :
    ∃ t₀, store.filter (fun u => u.name = X) = [t₀] ∧ t₀.name = X := by
  induction store with
  | nil => simp at hmem
  | cons t rest ih =>
      simp only [List.map_cons, List.nodup_cons] at hnodup
      by_cases ht : t.name = X
      · refine ⟨t, ?_, ht⟩
        have hXnot : X ∉ rest.map Tool.name := ht ▸ hnodup.1
        have hrest : rest.filter (fun u => u.name = X) = [] := by
          refine List.filter_eq_nil_iff.mpr ?_
          intro u hu
          simp only [decide_eq_true_eq]
          intro hcontr
          exact hXnot (hcontr ▸ List.mem_map_of_mem Tool.name hu)
        simp [List.filter_cons, ht, hrest]
      · have hmem' : X ∈ rest.map Tool.name := by
          simp only [List.map_cons, List.mem_cons] at hmem
          rcases hmem with h | h
          · exact absurd h.symm ht
          · exact h
        obtain ⟨t₀, hfil, hname⟩ := ih hnodup.2 hmem'
        exact ⟨t₀, by simp [List.filter_cons, ht, hfil], hname⟩

/-- C4: Re-adding a tool under a name `X` already present in a catalog
with unique names leaves the catalog cardinality unchanged and replaces
the definition in place: after `addTool` of `a` named `X` and then
`addTool` of `b` named `X`, the catalog has the same length as before and
the entries named `X` are exactly `[b]` — one tool named `X`, its
definition (in particular its description) that of `b`. -/
theorem addTool_upsert (store : List Tool) (a b : Tool) (X : String)
    (ha : a.name = X) (hb : b.name = X)
    (hnodup : (store.map Tool.name).Nodup)
    (hmem : X ∈ store.map Tool.name) :
    (addTool (addTool store a) b).length = store.length ∧
    (addTool (addTool store a) b).filter (fun t => t.name = X) = [b] := by
  obtain ⟨w, hw, hwname⟩ := List.mem_map.mp hmem
  have hanyX : (store.any fun u => u.name = X) = true :=
    List.any_eq_true.mpr ⟨w, hw, by simp [hwname]⟩
  have h1 : addTool store a =
      store.map (fun u => if u.name = X then a else u) := by
    simp [addTool, ha, hanyX]
  have hanyX2 : ((store.map (fun u => if u.name = X then a else u)).any
      fun u => u.name = X) = true := by
    refine List.any_eq_true.mpr ⟨a, ?_, by simp [ha]⟩
    refine List.mem_map.mpr ⟨w, hw, ?_⟩
    simp [hwname]
  have h2 : addTool (addTool store a) b =
      store.map (fun u => if u.name = X then b else u) := by
    rw [h1]
    simp only [addTool, hb, hanyX2, if_true, List.map_map]
    refine List.map_congr_left ?_
    intro u _
    by_cases hu : u.name = X
    · simp [Function.comp, hu, ha]
    · simp [Function.comp, hu]
  constructor
  · rw [h2]; simp
  · rw [h2]
    have hfil : (store.map (fun u => if u.name = X then b else u)).filter
        (fun t => t.name = X) =
        (store.filter (fun u => u.name = X)).map
          (fun u => if u.name = X then b else u) := by
      rw [List.filter_map]
      congr 1
      refine List.filter_congr ?_
      intro u _
      by_cases hu : u.name = X
      · simp [Function.comp, hu, hb]
      · simp [Function.comp, hu]
    obtain ⟨t₀, hft, ht₀⟩ := filter_name_unique store X hnodup hmem
    rw [hfil, hft]
    simp [ht₀]

/-- Witness for C4: a concrete two-tool catalog with a tool named `"X"`;
re-adding `"X"` twice keeps the catalog at two entries, with exactly one
tool named `"X"`, holding the second description. -/
theorem addTool_upsert_witness :
    (addTool (addTool
        [mkLocalTool "X" "orig" (fun _ => .ok .null) none,
         mkLocalTool "Y" "other" (fun _ => .ok .null) none]
        (mkLocalTool "X" "descA" (fun _ => .ok .null) none))
      (mkLocalTool "X" "descB" (fun _ => .ok .null) none)).length =
      [mkLocalTool "X" "orig" (fun _ => .ok .null) none,
       mkLocalTool "Y" "other" (fun _ => .ok .null) none].length ∧
    (addTool (addTool
        [mkLocalTool "X" "orig" (fun _ => .ok .null) none,
         mkLocalTool "Y" "other" (fun _ => .ok .null) none]
        (mkLocalTool "X" "descA" (fun _ => .ok .null) none))
      (mkLocalTool "X" "descB" (fun _ => .ok .null) none)).filter
        (fun t => t.name = "X") =
      [mkLocalTool "X" "descB" (fun _ => .ok .null) none] :=
  addTool_upsert
    [mkLocalTool "X" "orig" (fun _ => .ok .null) none,
     mkLocalTool "Y" "other" (fun _ => .ok .null) none]
    (mkLocalTool "X" "descA" (fun _ => .ok .null) none)
    (mkLocalTool "X" "descB" (fun _ => .ok .null) none)
    "X" rfl rfl (by simp [mkLocalTool]) (by simp [mkLocalTool])

/-- C5: With two registered providers `p ≠ q`, removing provider `p`
removes from the tool registry exactly the tools tagged with `p`'s
identity: no surviving tool is tagged with `p`, every tool not tagged with
`p` survives, nothing new appears, and the subsequences of `q`-tagged
tools and of local-origin tools are unchanged. -/
theorem removeProvider_removes_exactly_its_tools
    (st : McpServerStoreState) (p q : String) (hpq : p ≠ q)
    (hp : p ∈ st.servers.map McpServer.name)
    (hq : q ∈ st.servers.map McpServer.name) :
    (∀ t ∈ (removeMcpServerByName st p).tools, t.origin ≠ .provider p) ∧
    (∀ t ∈ st.tools, t.origin ≠ .provider p →
        t ∈ (removeMcpServerByName st p).tools) ∧
    (∀ t ∈ (removeMcpServerByName st p).tools, t ∈ st.tools) ∧
    (removeMcpServerByName st p).tools.filter
        (fun t => t.origin = .provider q) =
      st.tools.filter (fun t => t.origin = .provider q) ∧
    (removeMcpServerByName st p).tools.filter (fun t => t.origin = .local) =
      st.tools.filter (fun t => t.origin = .local) := by
  have htools : (removeMcpServerByName st p).tools =
      st.tools.filter (fun t => t.origin ≠ .provider p) := rfl
  refine ⟨?_, ?_, ?_, ?_, ?_⟩
  · intro t ht
    rw [htools] at ht
    simpa using (List.mem_filter.mp ht).2
  · intro t ht hor
    rw [htools]
    exact List.mem_filter.mpr ⟨ht, by simpa using hor⟩
  · intro t ht
    rw [htools] at ht
    exact (List.mem_filter.mp ht).1
  · rw [htools, List.filter_filter]
    refine List.filter_congr ?_
    intro t _
    by_cases hto : t.origin = .provider q
    · simp [hto, Ne.symm hpq]
    · simp [hto]
  · rw [htools, List.filter_filter]
    refine List.filter_congr ?_
    intro t _
    by_cases hto : t.origin = .local
    · simp [hto]
    · simp [hto]

/-- Witness for C5: a concrete registry with providers `"p1"` and `"p2"`
and a mixed tool catalog; removing `"p1"` leaves `"p2"`'s tool and the
local tool untouched and drops exactly `"p1"`'s tools. -/
theorem removeProvider_removes_exactly_its_tools_witness :
    (∀ t ∈ (removeMcpServerByName
        ⟨[⟨"p1", "cmd1", [], .running⟩, ⟨"p2", "cmd2", [], .running⟩],
         [{ name := "a", description := "", parameters := none,
            origin := .provider "p1", execute := fun _ => .null },
          { name := "b", description := "", parameters := none,
            origin := .provider "p2", execute := fun _ => .null },
          { name := "c", description := "", parameters := none,
            origin := .local, execute := fun _ => .null }]⟩ "p1").tools,
      t.origin ≠ .provider "p1") ∧
    (∀ t ∈ [{ name := "a", description := "", parameters := none,
              origin := .provider "p1", execute := fun _ => JValue.null },
            { name := "b", description := "", parameters := none,
              origin := .provider "p2", execute := fun _ => JValue.null },
            { name := "c", description := "", parameters := none,
              origin := .local, execute := fun _ => JValue.null }],
      t.origin ≠ .provider "p1" →
        t ∈ (removeMcpServerByName
          ⟨[⟨"p1", "cmd1", [], .running⟩, ⟨"p2", "cmd2", [], .running⟩],
           [{ name := "a", description := "", parameters := none,
              origin := .provider "p1", execute := fun _ => .null },
            { name := "b", description := "", parameters := none,
              origin := .provider "p2", execute := fun _ => .null },
            { name := "c", description := "", parameters := none,
              origin := .local, execute := fun _ => .null }]⟩ "p1").tools) ∧
    (∀ t ∈ (removeMcpServerByName
        ⟨[⟨"p1", "cmd1", [], .running⟩, ⟨"p2", "cmd2", [], .running⟩],
         [{ name := "a", description := "", parameters := none,
            origin := .provider "p1", execute := fun _ => .null },
          { name := "b", description := "", parameters := none,
            origin := .provider "p2", execute := fun _ => .null },
          { name := "c", description := "", parameters := none,
            origin := .local, execute := fun _ => .null }]⟩ "p1").tools,
      t ∈ [{ name := "a", description := "", parameters := none,
             origin := .provider "p1", execute := fun _ => JValue.null },
           { name := "b", description := "", parameters := none,
             origin := .provider "p2", execute := fun _ => JValue.null },
           { name := "c", description := "", parameters := none,
             origin := .local, execute := fun _ => JValue.null }]) ∧
    (removeMcpServerByName
        ⟨[⟨"p1", "cmd1", [], .running⟩, ⟨"p2", "cmd2", [], .running⟩],
         [{ name := "a", description := "", parameters := none,
            origin := .provider "p1", execute := fun _ => .null },
          { name := "b", description := "", parameters := none,
            origin := .provider "p2", execute := fun _ => .null },
          { name := "c", description := "", parameters := none,
            origin := .local, execute := fun _ => .null }]⟩ "p1").tools.filter
        (fun t => t.origin = .provider "p2") =
      [{ name := "a", description := "", parameters := none,
         origin := .provider "p1", execute := fun _ => JValue.null },
       { name := "b", description := "", parameters := none,
         origin := .provider "p2", execute := fun _ => JValue.null },
       { name := "c", description := "", parameters := none,
         origin := .local, execute := fun _ => JValue.null }].filter
        (fun t => t.origin = .provider "p2") ∧
    (removeMcpServerByName
        ⟨[⟨"p1", "cmd1", [], .running⟩, ⟨"p2", "cmd2", [], .running⟩],
         [{ name := "a", description := "", parameters := none,
            origin := .provider "p1", execute := fun _ => .null },
          { name := "b", description := "", parameters := none,
            origin := .provider "p2", execute := fun _ => .null },
          { name := "c", description := "", parameters := none,
            origin := .local, execute := fun _ => .null }]⟩ "p1").tools.filter
        (fun t => t.origin = .local) =
      [{ name := "a", description := "", parameters := none,
         origin := .provider "p1", execute := fun _ => JValue.null },
       { name := "b", description := "", parameters := none,
         origin := .provider "p2", execute := fun _ => JValue.null },
       { name := "c", description := "", parameters := none,
         origin := .local, execute := fun _ => JValue.null }].filter
        (fun t => t.origin = .local) :=
  removeProvider_removes_exactly_its_tools
    ⟨[⟨"p1", "cmd1", [], .running⟩, ⟨"p2", "cmd2", [], .running⟩],
     [{ name := "a", description := "", parameters := none,
        origin := .provider "p1", execute := fun _ => .null },
      { name := "b", description := "", parameters := none,
        origin := .provider "p2", execute := fun _ => .null },
      { name := "c", description := "", parameters := none,
        origin := .local, execute := fun _ => .null }]⟩
    "p1" "p2" (by decide) (by simp) (by simp)

/-- C7: The compiled callable's formal parameters are exactly the schema's
declared property names in insertion order, and invoking the tool with a
named-argument object executes the supplied body on the positional vector
obtained by looking each formal parameter up by name in the argument
object — the same-named argument value, `none` (undefined) if absent. -/
theorem compiler_binds_schema_parameters (sch : Schema)
    (props : List (String × PropSpec)) (hprops : sch.properties = some props)
    (body : BodySem) (args : List (String × JValue))
    (name description : String) :
    requestedParameters (some sch) = props.map Prod.fst ∧
    argVector (some sch) args =
      (props.map Prod.fst).map
        (fun p => (args.find? (fun kv => kv.1 = p)).map Prod.snd) ∧
    (mkLocalTool name description body (some sch)).execute args =
      (match body ((props.map Prod.fst).map
          (fun p => (args.find? (fun kv => kv.1 = p)).map Prod.snd)) with
        | .ok v => v
        | .error msg => .str (stringifyFailure msg)) := by
  have hreq : requestedParameters (some sch) = props.map Prod.fst := by
    simp [requestedParameters, hprops]
  have hvec : argVector (some sch) args =
      (props.map Prod.fst).map
        (fun p => (args.find? (fun kv => kv.1 = p)).map Prod.snd) := by
    simp [argVector, hreq, argLookup]
  exact ⟨hreq, hvec, by simp [mkLocalTool, onExecute, hvec]⟩

/-- Witness for C7: a two-property schema `(x, y)` invoked with the
argument object `\x7by:2, x:1\x7d` — the formals are `["x", "y"]` and the
body receives the same-named values in schema order, not in argument
order. -/
theorem compiler_binds_schema_parameters_witness :
    requestedParameters
        (some ⟨some [("x", ⟨"number", "fst"⟩), ("y", ⟨"number", "snd"⟩)],
          ["x", "y"]⟩) =
      [("x", (⟨"number", "fst"⟩ : PropSpec)),
       ("y", ⟨"number", "snd"⟩)].map Prod.fst ∧
    argVector
        (some ⟨some [("x", ⟨"number", "fst"⟩), ("y", ⟨"number", "snd"⟩)],
          ["x", "y"]⟩) [("y", .num 2), ("x", .num 1)] =
      ([("x", (⟨"number", "fst"⟩ : PropSpec)),
        ("y", ⟨"number", "snd"⟩)].map Prod.fst).map
        (fun p => (([("y", JValue.num 2), ("x", JValue.num 1)].find?
            (fun kv => kv.1 = p)).map Prod.snd)) ∧
    (mkLocalTool "t" "d" (fun v => .ok (.arr (v.map (fun o => o.getD .null))))
        (some ⟨some [("x", ⟨"number", "fst"⟩), ("y", ⟨"number", "snd"⟩)],
          ["x", "y"]⟩)).execute [("y", .num 2), ("x", .num 1)] =
      (match (fun v : List (Option JValue) =>
            Except.ok (ε := String) (JValue.arr (v.map (fun o => o.getD .null))))
          (([("x", (⟨"number", "fst"⟩ : PropSpec)),
             ("y", ⟨"number", "snd"⟩)].map Prod.fst).map
            (fun p => (([("y", JValue.num 2), ("x", JValue.num 1)].find?
                (fun kv => kv.1 = p)).map Prod.snd))) with
        | .ok v => v
        | .error msg => .str (stringifyFailure msg)) :=
  compiler_binds_schema_parameters
    ⟨some [("x", ⟨"number", "fst"⟩), ("y", ⟨"number", "snd"⟩)], ["x", "y"]⟩
    [("x", ⟨"number", "fst"⟩), ("y", ⟨"number", "snd"⟩)] rfl
    (fun v => .ok (.arr (v.map (fun o => o.getD .null))))
    [("y", .num 2), ("x", .num 1)] "t" "d"

/-- C10: A compiled local tool invoked with an argument object omitting a
schema-declared property binds `none` (undefined) to that parameter and
still executes the body (the invocation is total, never a failure of the
host); argument properties not declared in the schema are invisible to the
body — two argument objects agreeing on the declared names yield identical
results; and a schema with no `properties` object yields a zero-parameter
callable whose body receives the empty argument vector. -/
theorem compiled_tool_argument_handling
    (sch : Option Schema) (body : BodySem)
    (args args' : List (String × JValue)) (name description p : String)
    (homitted : ∀ kv ∈ args, kv.1 ≠ p)
    (hagree : ∀ q ∈ requestedParameters sch,
        argLookup args q = argLookup args' q)
    (sch0 : Schema) (h0 : sch0.properties = none) :
    argLookup args p = none ∧
    (mkLocalTool name description body sch).execute args =
      (match body (argVector sch args) with
        | .ok v => v
        | .error msg => .str (stringifyFailure msg)) ∧
    (mkLocalTool name description body sch).execute args =
      (mkLocalTool name description body sch).execute args' ∧
    requestedParameters (some sch0) = [] ∧
    (mkLocalTool name description body (some sch0)).execute args =
      (match body [] with
        | .ok v => v
        | .error msg => .str (stringifyFailure msg)) := by
  have hlookup : argLookup args p = none := by
    have hfind : args.find? (fun kv => kv.1 = p) = none := by
      refine List.find?_eq_none.mpr ?_
      intro kv hkv
      simpa using homitted kv hkv
    simp [argLookup, hfind]
  have hvec : argVector sch args = argVector sch args' := by
    refine List.map_congr_left ?_
    intro q hq
    exact hagree q hq
  have hzero : requestedParameters (some sch0) = [] := by
    simp [requestedParameters, h0]
  refine ⟨hlookup, rfl, ?_, hzero, ?_⟩
  · simp [mkLocalTool, onExecute, hvec]
  · simp [mkLocalTool, onExecute, argVector, hzero]

/-- Witness for C10: a schema declaring `x` and `y` invoked with
`\x7by:2, extra:9\x7d` — `x` is bound to undefined, the undeclared `extra`
is invisible (the same result as with `\x7by:2\x7d`), and a
properties-less schema gives the body the empty vector. -/
theorem compiled_tool_argument_handling_witness :
    argLookup [("y", JValue.num 2), ("extra", JValue.num 9)] "x" = none ∧
    (mkLocalTool "t" "d"
        (fun v => .ok (.arr (v.map (fun o => o.getD .null))))
        (some ⟨some [("x", ⟨"number", "fst"⟩), ("y", ⟨"number", "snd"⟩)],
          []⟩)).execute [("y", .num 2), ("extra", .num 9)] =
      (match (fun v : List (Option JValue) =>
            Except.ok (ε := String)
              (JValue.arr (v.map (fun o => o.getD .null))))
          (argVector
            (some ⟨some [("x", ⟨"number", "fst"⟩), ("y", ⟨"number", "snd"⟩)],
              []⟩) [("y", .num 2), ("extra", .num 9)]) with
        | .ok v => v
        | .error msg => .str (stringifyFailure msg)) ∧
    (mkLocalTool "t" "d"
        (fun v => .ok (.arr (v.map (fun o => o.getD .null))))
        (some ⟨some [("x", ⟨"number", "fst"⟩), ("y", ⟨"number", "snd"⟩)],
          []⟩)).execute [("y", .num 2), ("extra", .num 9)] =
      (mkLocalTool "t" "d"
        (fun v => .ok (.arr (v.map (fun o => o.getD .null))))
        (some ⟨some [("x", ⟨"number", "fst"⟩), ("y", ⟨"number", "snd"⟩)],
          []⟩)).execute [("y", .num 2)] ∧
    requestedParameters (some ⟨none, []⟩) = [] ∧
    (mkLocalTool "t" "d"
        (fun v => .ok (.arr (v.map (fun o => o.getD .null))))
        (some ⟨none, []⟩)).execute [("y", .num 2), ("extra", .num 9)] =
      (match (fun v : List (Option JValue) =>
            Except.ok (ε := String)
              (JValue.arr (v.map (fun o => o.getD .null)))) [] with
        | .ok v => v
        | .error msg => .str (stringifyFailure msg)) :=
  compiled_tool_argument_handling
    (some ⟨some [("x", ⟨"number", "fst"⟩), ("y", ⟨"number", "snd"⟩)], []⟩)
    (fun v => .ok (.arr (v.map (fun o => o.getD .null))))
    [("y", .num 2), ("extra", .num 9)] [("y", .num 2)] "t" "d" "x"
    (by
      intro kv hkv
      simp only [List.mem_cons, List.not_mem_nil, or_false] at hkv
      rcases hkv with h | h <;> subst h <;> decide)
    (by
      intro q hq
      rcases (by simpa [requestedParameters] using hq : q = "x" ∨ q = "y")
        with h | h <;> subst h <;> rfl)
    ⟨none, []⟩ rfl

/-- C9 counterexample: `POST /api/messages` with a body whose required
`message` field is absent is not rejected at the boundary — the handler
performs no validation, answers 200 and invokes the core
(`llmClient.sendMessage`), so the request does enter the orchestration
state machine. -/
theorem messages_post_skips_validation :
    handleMessagesPost none = { status := 200, coreEntered := true } := rfl

/-- C9 amended: the tool and MCP-server endpoints reject a body with a
missing (or falsy) required field with status 400 before any core store is
touched or the orchestration state machine is entered; `POST
/api/messages` alone performs no boundary validation and invokes the core
for every body, including one with `message` missing. -/
theorem boundary_validation_except_messages
    (tb : ToolsPostBody) (mb : McpServersPostBody)
    (tn mn msg : Option JValue)
    (htb : truthy tb.name = false ∨ truthy tb.description = false ∨
      truthy tb.code = false ∨ truthy tb.parameters = false)
    (hmb : truthy mb.name = false ∨ truthy mb.command = false ∨
      truthy mb.args = false)
    (htn : truthy tn = false) (hmn : truthy mn = false) :
    handleToolsPost tb = { status := 400, coreEntered := false } ∧
    handleMcpServersPost mb = { status := 400, coreEntered := false } ∧
    handleToolsDelete tn = { status := 400, coreEntered := false } ∧
    handleMcpServersDelete mn = { status := 400, coreEntered := false } ∧
    handleMessagesPost msg = { status := 200, coreEntered := true } := by
  refine ⟨?_, ?_, ?_, ?_, rfl⟩
  · rcases htb with h | h | h | h <;> simp [handleToolsPost, h]
  · rcases hmb with h | h | h <;> simp [handleMcpServersPost, h]
  · simp [handleToolsDelete, htn]
  · simp [handleMcpServersDelete, hmn]

/-- Witness for C9 (amended): wholly empty request bodies are rejected
with 400 by the validating endpoints, while `POST /api/messages` with an
empty body still reaches the core. -/
theorem boundary_validation_except_messages_witness :
    handleToolsPost ⟨none, none, none, none⟩ =
      { status := 400, coreEntered := false } ∧
    handleMcpServersPost ⟨none, none, none⟩ =
      { status := 400, coreEntered := false } ∧
    handleToolsDelete none = { status := 400, coreEntered := false } ∧
    handleMcpServersDelete none = { status := 400, coreEntered := false } ∧
    handleMessagesPost none = { status := 200, coreEntered := true } :=
  boundary_validation_except_messages ⟨none, none, none, none⟩
    ⟨none, none, none⟩ none none none (Or.inl rfl) (Or.inl rfl) rfl rfl

end VisualChatbot
